import Mathlib

/-!
Verification development for the tsuru `queue` package (`src/queue/queue.go`),
a beanstalk-backed work-queue client.

The Go code is shallowly embedded:

* Go errors in this layer are observed only through their `Error()` text,
  so an error is a `String`.
* The beanstalk transport is an opaque network service; its behaviour is a
  parameter (`Env`) mapping each request to the reply the transport gives.
* The package-level shared connection handle and the dial/probe counters form
  an explicit state (`St`) threaded through the operations.
* Every transport interaction an operation performs is recorded in a trace
  (`List TCall`), so "performs no transport call" is a statement about the
  trace.
* `connection()` in the Go source calls itself recursively when the liveness
  probe fails; the embedding `connectionAux` takes a fuel argument and
  returns `Res.diverge` when the fuel is exhausted, one unit of fuel per
  pass through the body.
-/

namespace TsuruQueue

/-- Go errors in this layer are carried by their message text. -/
abbrev GoError := String

/-- A string ends with the given token (stated on the character lists). -/
def endsWithTok (e tok : String) : Bool := tok.toList.isSuffixOf e.toList

/-- Embedding of `timeoutRegexp = regexp.MustCompile("TIMED_OUT$")`:
the regular expression matches exactly the strings ending in `TIMED_OUT`. -/
def timedOutMatch (e : GoError) : Bool := endsWithTok e "TIMED_OUT"

/-- Embedding of `notFoundRegexp = regexp.MustCompile("not found$")`. -/
def notFoundMatch (e : GoError) : Bool := endsWithTok e "not found"

/-- The `Message` struct: exported fields `Action`, `Args` and the
unexported transport-local field `id` (`uint64`, zero when unset). -/
structure Message where
  Action : String
  Args : List String
  id : Nat
deriving Repr, DecidableEq

/-- One request reaching the transport.  Connections are identified by the
number handed out by the dialer. -/
inductive TCall where
  | dial (addr : String)
  | probe (c : Nat)
  | tput (c : Nat) (body : List Nat) (pri delay ttr : Nat)
  | treserve (c : Nat) (timeout : Nat)
  | tdelete (c : Nat) (mid : Nat)
  | trelease (c : Nat) (mid pri delay : Nat)
deriving Repr, DecidableEq

/-- Behaviour of the external world: the configuration source and the
transport's reply to each request.  Dials and probes are indexed by how many
of them have happened so far, so a flapping transport is expressible. -/
structure Env where
  cfg : Option String
  dialResult : Nat → Except GoError Nat
  probeResult : Nat → Option GoError
  encodeErr : Option GoError
  putResult : List Nat → Nat → Nat → Nat → Nat × Option GoError
  reserveResult : Nat → Except GoError (Nat × List Nat)
  deleteResult : Nat → Option GoError
  releaseResult : Nat → Nat → Nat → Option GoError

/-- The package-level mutable state: the shared `conn` handle and counters
for how many dials and probes have happened. -/
structure St where
  conn : Option Nat
  dialN : Nat
  probeN : Nat
deriving Repr, DecidableEq

/-- Outcome of an operation: success, a Go error, or non-termination of the
embedded recursion (fuel exhausted). -/
inductive Res (α : Type) where
  | ok (a : α)
  | err (e : GoError)
  | diverge
deriving Repr, DecidableEq

/-- Result of `connection()`: outcome, final shared state, transport trace. -/
structure CRes where
  res : Res Nat
  st : St
  tr : List TCall
deriving Repr, DecidableEq

/-- The error `connection()` returns when the `queue-server` key is absent. -/
def cfgMissing : GoError := "\"queue-server\" is not defined in config file."

/-- Embedding of `connection()` (queue.go lines 124-149): if the shared
`conn` is nil, read the config key and dial; then probe the connection with
`ListTubes`; on probe failure set `conn = nil` and recurse.  One unit of
fuel is consumed per pass through the body. -/
def connectionAux (env : Env) : Nat → St → CRes
  | 0, _ => ⟨.diverge, ⟨none, 0, 0⟩, []⟩
  | fuel + 1, st =>
    match st.conn with
    | some c =>
      match env.probeResult st.probeN with
      | some _ =>
        let r := connectionAux env fuel ⟨none, st.dialN, st.probeN + 1⟩
        ⟨r.res, r.st, .probe c :: r.tr⟩
      | none => ⟨.ok c, ⟨some c, st.dialN, st.probeN + 1⟩, [.probe c]⟩
    | none =>
      match env.cfg with
      | none => ⟨.err cfgMissing, st, []⟩
      | some addr =>
        match env.dialResult st.dialN with
        | .error e => ⟨.err e, ⟨none, st.dialN + 1, st.probeN⟩, [.dial addr]⟩
        | .ok c =>
          match env.probeResult st.probeN with
          | some _ =>
            let r := connectionAux env fuel ⟨none, st.dialN + 1, st.probeN + 1⟩
            ⟨r.res, r.st, .dial addr :: .probe c :: r.tr⟩
          | none =>
            ⟨.ok c, ⟨some c, st.dialN + 1, st.probeN + 1⟩, [.dial addr, .probe c]⟩

/-- Result of `Delete`/`Release`: outcome, final state, transport trace. -/
structure URes where
  res : Res Unit
  st : St
  tr : List TCall
deriving Repr, DecidableEq

/-- Embedding of `(*Message).Release` (queue.go lines 53-65): the id check
comes first, then connection acquisition, then `conn.Release(m.id, 1, 0)`
with the "not found" normalization. -/
def goRelease (env : Env) (fuel : Nat) (st : St) (m : Message) : URes :=
  if m.id = 0 then ⟨.err "Unknown message.", st, []⟩
  else
    let c := connectionAux env fuel st
    match c.res with
    | .diverge => ⟨.diverge, c.st, c.tr⟩
    | .err e => ⟨.err e, c.st, c.tr⟩
    | .ok cn =>
      match env.releaseResult m.id 1 0 with
      | some e =>
        if notFoundMatch e then
          ⟨.err "Message not found.", c.st, c.tr ++ [.trelease cn m.id 1 0]⟩
        else ⟨.err e, c.st, c.tr ++ [.trelease cn m.id 1 0]⟩
      | none => ⟨.ok (), c.st, c.tr ++ [.trelease cn m.id 1 0]⟩

/-- Embedding of `Delete` (queue.go lines 110-122): connection acquisition
comes FIRST, only then the `msg.id == 0` check, then `conn.Delete(msg.id)`
with the "not found" normalization. -/
def goDelete (env : Env) (fuel : Nat) (st : St) (m : Message) : URes :=
  let c := connectionAux env fuel st
  match c.res with
  | .diverge => ⟨.diverge, c.st, c.tr⟩
  | .err e => ⟨.err e, c.st, c.tr⟩
  | .ok cn =>
    if m.id = 0 then ⟨.err "Unknown message.", c.st, c.tr⟩
    else
      match env.deleteResult m.id with
      | some e =>
        if notFoundMatch e then
          ⟨.err "Message not found.", c.st, c.tr ++ [.tdelete cn m.id]⟩
        else ⟨.err e, c.st, c.tr ++ [.tdelete cn m.id]⟩
      | none => ⟨.ok (), c.st, c.tr ++ [.tdelete cn m.id]⟩

/-- Modelled from the spec: the pluggable serializer (`encoding/gob`).
`gob` serializes only the exported fields of a struct, so a `Message` is
encoded as a record of exactly `Action` and `Args`; the unexported `id`
never reaches the wire.  The concrete byte layout here is a simple
length-prefixed one standing in for gob's: each string is its length
followed by its character codes, and the argument list is its length
followed by the encoded strings. -/
def encodeStr (s : String) : List Nat := s.length :: s.toList.map Char.toNat

/-- Wire payload of a `Message`: the `Action` field followed by the `Args`
field, built from the exported fields only. -/
def gobEncode (m : Message) : List Nat :=
  encodeStr m.Action ++ m.Args.length :: (m.Args.map encodeStr).flatten

/-- Decode failures, separating gob's clean `io.EOF` (an empty stream, no
value present at all) from every other decode error (`err != io.EOF`). -/
inductive DecErr where
  | eof
  | other (e : String)
deriving Repr, DecidableEq

/-- Read one length-prefixed string from the payload. -/
def readStr : List Nat → Option (String × List Nat)
  | [] => none
  | n :: rest =>
    if n ≤ rest.length then
      some (((rest.take n).map Char.ofNat).asString, rest.drop n)
    else none

/-- Read `k` length-prefixed strings from the payload. -/
def readStrs : Nat → List Nat → Option (List String × List Nat)
  | 0, b => some ([], b)
  | k + 1, b =>
    match readStr b with
    | none => none
    | some (s, r) =>
      match readStrs k r with
      | none => none
      | some (l, r2) => some (s :: l, r2)

/-- Modelled from the spec: `gob` decoding of a payload into the exported
fields `(Action, Args)`.  An empty stream is gob's clean `io.EOF`; a
truncated or malformed stream is any other error. -/
def gobDecode (b : List Nat) : Except DecErr (String × List String) :=
  match b with
  | [] => .error .eof
  | _ :: _ =>
    match readStr b with
    | none => .error (.other "gob: corrupt input")
    | some (a, r1) =>
      match r1 with
      | [] => .error (.other "unexpected EOF")
      | k :: r2 =>
        match readStrs k r2 with
        | none => .error (.other "unexpected EOF")
        | some (l, _) => .ok (a, l)

/-- Modelled from the spec: `fmt`'s `%q` rendering of the raw payload bytes
used in the `Invalid message: %q` error (exact escaping elided; the raw
payload appears between the quotes). -/
def goQuote (b : List Nat) : String :=
  "\"" ++ (b.map Char.ofNat).asString ++ "\""

/-- Modelled from the spec: the `%s` rendering of a `time.Duration` (in
nanoseconds) used in the timeout error text, for durations that are whole
multiples of a unit — the only ones this development evaluates it on. -/
def goDurationString (t : Nat) : String :=
  if t = 0 then "0s"
  else if t % 1000000000 = 0 then
    let s := t / 1000000000
    let h := s / 3600
    let m := s % 3600 / 60
    let sec := s % 60
    if h > 0 then toString h ++ "h" ++ toString m ++ "m" ++ toString sec ++ "s"
    else if m > 0 then toString m ++ "m" ++ toString sec ++ "s"
    else toString sec ++ "s"
  else if t % 1000000 = 0 then toString (t / 1000000) ++ "ms"
  else if t % 1000 = 0 then toString (t / 1000) ++ "µs"
  else toString t ++ "ns"

/-- Result of `Put`: outcome, the (possibly mutated) message, final state,
transport trace. -/
structure PutRes where
  res : Res Unit
  msg : Message
  st : St
  tr : List TCall
deriving Repr, DecidableEq

/-- Embedding of `Put` (queue.go lines 68-81): acquire the connection,
gob-encode the message, then `id, err := conn.Put(buf.Bytes(), 1, 0, 60e9);
msg.id = id; return err` — note the id is stored in the message BEFORE the
error is inspected, i.e. unconditionally. -/
def goPut (env : Env) (fuel : Nat) (st : St) (m : Message) : PutRes :=
  let c := connectionAux env fuel st
  match c.res with
  | .diverge => ⟨.diverge, m, c.st, c.tr⟩
  | .err e => ⟨.err e, m, c.st, c.tr⟩
  | .ok cn =>
    match env.encodeErr with
    | some e => ⟨.err e, m, c.st, c.tr⟩
    | none =>
      let body := gobEncode m
      let pr := env.putResult body 1 0 60000000000
      let m2 := { m with id := pr.1 }
      match pr.2 with
      | some e => ⟨.err e, m2, c.st, c.tr ++ [.tput cn body 1 0 60000000000]⟩
      | none => ⟨.ok (), m2, c.st, c.tr ++ [.tput cn body 1 0 60000000000]⟩

/-- Result of `Get`: outcome (carrying the message on success), final
state, transport trace. -/
structure GetRes where
  res : Res Message
  st : St
  tr : List TCall
deriving Repr, DecidableEq

/-- Embedding of `Get` (queue.go lines 84-104): acquire the connection,
`conn.Reserve(timeout)`; a reservation error ending in `TIMED_OUT` becomes
the timeout error, any other reservation error is returned as-is; a decode
error other than `io.EOF` triggers `conn.Delete(id)` (its error discarded)
and the `Invalid message: %q` error; otherwise the decoded (or, on `io.EOF`,
zero-valued) message is returned with `msg.id = id`. -/
def goGet (env : Env) (fuel : Nat) (st : St) (timeout : Nat) : GetRes :=
  let c := connectionAux env fuel st
  match c.res with
  | .diverge => ⟨.diverge, c.st, c.tr⟩
  | .err e => ⟨.err e, c.st, c.tr⟩
  | .ok cn =>
    match env.reserveResult timeout with
    | .error e =>
      if timedOutMatch e then
        ⟨.err ("Timed out waiting for message after " ++ goDurationString timeout ++ "."),
          c.st, c.tr ++ [.treserve cn timeout]⟩
      else ⟨.err e, c.st, c.tr ++ [.treserve cn timeout]⟩
    | .ok (rid, body) =>
      match gobDecode body with
      | .error .eof => ⟨.ok ⟨"", [], rid⟩, c.st, c.tr ++ [.treserve cn timeout]⟩
      | .error (.other _) =>
        ⟨.err ("Invalid message: " ++ goQuote body), c.st,
          c.tr ++ [.treserve cn timeout, .tdelete cn rid]⟩
      | .ok (a, args) => ⟨.ok ⟨a, args, rid⟩, c.st, c.tr ++ [.treserve cn timeout]⟩

/-!
Interleaving model of `connection()` for the concurrency claim.  Two
threads execute the body of `connection()`; each program point of the Go
code is one atomic step.  The environment is fixed to the benign case the
claim is about: the config key is present, every dial succeeds (the k-th
dial returns connection `k+1`), and every probe succeeds.
-/

/-- Program points of `connection()` as executed by one thread:
`lock1` = `mut.Lock()` (line 129); `check` = `conn == nil` (line 130);
`unlock1` = `mut.Unlock()` (line 131); `cfgRead` = the config lookup
(line 132, outside the lock); `lock2` = `mut.Lock()` (line 136);
`dialStep` = `beanstalk.Dial` + store into `conn` (line 137);
`probeStep` = `conn.ListTubes()` (line 142); `unlock2` = `mut.Unlock()`
(line 147); `retStep` = `return conn` (line 148, reads `conn` after the
unlock). -/
inductive Pc where
  | lock1 | check | unlock1 | cfgRead | lock2 | dialStep | probeStep | unlock2 | retStep | done
deriving Repr, DecidableEq

/-- A thread: its program point and, once returned, the connection it
handed to its caller. -/
structure Thr where
  pc : Pc
  ret : Option Nat
deriving Repr, DecidableEq

/-- Shared state of the two-thread system: who holds the mutex, the shared
`conn` handle, how many dials have happened, and the two threads. -/
structure Sys where
  lockBy : Option Bool
  conn : Option Nat
  dials : Nat
  thr0 : Thr
  thr1 : Thr
deriving Repr, DecidableEq

/-- The thread selected by a scheduler bit. -/
def getThr (s : Sys) (w : Bool) : Thr :=
  if w then s.thr1 else s.thr0

/-- Replace the thread selected by a scheduler bit. -/
def setThr (s : Sys) (w : Bool) (t : Thr) : Sys :=
  if w then { s with thr1 := t } else { s with thr0 := t }

/-- One atomic step of thread `w`.  A thread waiting on a held mutex does
not advance.  Dials always succeed and probes are always healthy, matching
the scenario of the claim. -/
def step (s : Sys) (w : Bool) : Sys :=
  let t := getThr s w
  match t.pc with
  | .lock1 =>
    match s.lockBy with
    | none => setThr { s with lockBy := some w } w { t with pc := .check }
    | some _ => s
  | .check =>
    match s.conn with
    | none => setThr s w { t with pc := .unlock1 }
    | some _ => setThr s w { t with pc := .probeStep }
  | .unlock1 => setThr { s with lockBy := none } w { t with pc := .cfgRead }
  | .cfgRead => setThr s w { t with pc := .lock2 }
  | .lock2 =>
    match s.lockBy with
    | none => setThr { s with lockBy := some w } w { t with pc := .dialStep }
    | some _ => s
  | .dialStep =>
    setThr { s with conn := some (s.dials + 1), dials := s.dials + 1 } w
      { t with pc := .probeStep }
  | .probeStep => setThr s w { t with pc := .unlock2 }
  | .unlock2 => setThr { s with lockBy := none } w { t with pc := .retStep }
  | .retStep => setThr s w { t with pc := .done, ret := s.conn }
  | .done => s

/-- Run the two-thread system under a schedule (list of scheduler bits). -/
def run (sched : List Bool) (s : Sys) : Sys :=
  sched.foldl step s

/-- Initial system: mutex free, no connection, both threads entering
`connection()`. -/
def sys0 : Sys :=
  ⟨none, none, 0, ⟨.lock1, none⟩, ⟨.lock1, none⟩⟩

/-- The racing schedule: both threads pass the `conn == nil` check and
release the mutex before either re-acquires it to dial. -/
def schedRace : List Bool :=
  [false, false, false, true, true, true] ++
    List.replicate 6 false ++ List.replicate 6 true

/-!  Concrete environments used by witnesses and counterexamples. -/

/-- A benign world: config present, the k-th dial yields connection `k+1`,
probes healthy, transport answers every request successfully (puts are
acknowledged with id 7). -/
def envOkBase : Env :=
  ⟨some "localhost:11300",
    fun k => .ok (k + 1),
    fun _ => none,
    none,
    fun _ _ _ _ => (7, none),
    fun _ => .error "TIMED_OUT",
    fun _ => none,
    fun _ _ _ => none⟩

/-- A persistently flapping transport: dials succeed but every liveness
probe fails. -/
def envFlap : Env :=
  ⟨some "localhost:11300",
    fun k => .ok (k + 1),
    fun _ => some "ListTubes: connection reset",
    none,
    fun _ _ _ _ => (7, none),
    fun _ => .error "TIMED_OUT",
    fun _ => none,
    fun _ _ _ => none⟩

/-- A transport whose put answers with a non-zero id together with an error
(as beanstalk's `BURIED <id>` reply to a put does). -/
def envBuried : Env :=
  ⟨some "localhost:11300",
    fun k => .ok (k + 1),
    fun _ => none,
    none,
    fun _ _ _ _ => (7, some "buried"),
    fun _ => .error "TIMED_OUT",
    fun _ => none,
    fun _ _ _ => none⟩

/-- A transport delivering a reservation whose payload `[5]` is corrupt
(a length prefix with no bytes behind it). -/
def envBadBody : Env :=
  ⟨some "localhost:11300",
    fun k => .ok (k + 1),
    fun _ => none,
    none,
    fun _ _ _ _ => (7, none),
    fun _ => .ok (9, [5]),
    fun _ => none,
    fun _ _ _ => none⟩

/-- A transport delivering a reservation with an empty payload, which
gob-decodes to a clean `io.EOF`. -/
def envEmptyBody : Env :=
  ⟨some "localhost:11300",
    fun k => .ok (k + 1),
    fun _ => none,
    none,
    fun _ _ _ _ => (7, none),
    fun _ => .ok (11, []),
    fun _ => none,
    fun _ _ _ => none⟩

/-- A transport that answers delete and release with a "not found" error. -/
def envNotFound : Env :=
  ⟨some "localhost:11300",
    fun k => .ok (k + 1),
    fun _ => none,
    none,
    fun _ _ _ _ => (7, none),
    fun _ => .error "TIMED_OUT",
    fun _ => some "job not found",
    fun _ _ _ => some "job not found"⟩

/-- A transport whose reservation hands back the wire payload of the
message `⟨"A", ["x", "y"]⟩` under reservation id 42, closing a
put-then-get round trip. -/
def envRoundTrip : Env :=
  ⟨some "localhost:11300", fun k => .ok (k + 1), fun _ => none, none,
    fun _ _ _ _ => (7, none), fun _ => .ok (42, gobEncode ⟨"A", ["x", "y"], 3⟩),
    fun _ => none, fun _ _ _ => none⟩

/-- The initial package state: no shared connection, no dials or probes
performed yet. -/
def st0 : St := ⟨none, 0, 0⟩

/-!  Helper lemmas shared by the claim theorems. -/

/-- Character codes decode back to the characters they came from. -/
theorem map_ofNat_toNat (l : List Char) : (l.map Char.toNat).map Char.ofNat = l := by
  simp [List.map_map, Function.comp_def, Char.ofNat_toNat]

/-- Reading one length-prefixed string undoes `encodeStr`. -/
theorem readStr_encode (s : String) (r : List Nat) :
    readStr (encodeStr s ++ r) = some (s, r) := by
  have hlen : (s.toList.map Char.toNat).length = s.length := by simp
  simp only [encodeStr, List.cons_append, readStr]
  rw [← hlen, List.take_left, List.drop_left, map_ofNat_toNat]
  simp [String.toList]
  rfl

/-- Reading a counted sequence of length-prefixed strings undoes the
encoding of an argument list. -/
theorem readStrs_encode (l : List String) (r : List Nat) :
    readStrs l.length ((l.map encodeStr).flatten ++ r) = some (l, r) := by
  induction l generalizing r with
  | nil => simp [readStrs]
  | cons s t ih =>
    simp only [List.map_cons, List.flatten_cons, List.length_cons, List.append_assoc, readStrs,
      readStr_encode, ih]

/-- Decoding undoes encoding: the wire payload of a message decodes to
exactly its `Action` and `Args`. -/
theorem gobDecode_gobEncode (m : Message) :
    gobDecode (gobEncode m) = .ok (m.Action, m.Args) := by
  have h : gobEncode m = encodeStr m.Action ++ m.Args.length :: (m.Args.map encodeStr).flatten := rfl
  rw [gobDecode.eq_def, h, readStr_encode]
  split
  next heq => exact absurd heq (by simp [encodeStr])
  next heq =>
    have h2 : readStrs m.Args.length ((m.Args.map encodeStr).flatten) = some (m.Args, []) := by
      have h3 := readStrs_encode m.Args []
      simpa using h3
    simp [h2]

/-- Every transport call `connection()` makes is a dial or a liveness
probe: acquisition alone never issues put/reserve/delete/release. -/
theorem connection_tr_dial_probe (env : Env) (fuel : Nat) (st : St) :
    ∀ x ∈ (connectionAux env fuel st).tr,
      (∃ a, x = TCall.dial a) ∨ (∃ c, x = TCall.probe c) := by
  induction fuel generalizing st with
  | zero => intro x hx; simp [connectionAux] at hx
  | succ n ih =>
    intro x hx
    simp only [connectionAux] at hx
    split at hx
    · split at hx
      · simp only [List.mem_cons] at hx
        rcases hx with h | h
        · exact Or.inr ⟨_, h⟩
        · exact ih _ _ h
      · simp only [List.mem_singleton] at hx
        exact Or.inr ⟨_, hx⟩
    · split at hx
      · simp at hx
      · split at hx
        · simp only [List.mem_singleton] at hx
          exact Or.inl ⟨_, hx⟩
        · split at hx
          · simp only [List.mem_cons] at hx
            rcases hx with h | h
            · exact Or.inl ⟨_, h⟩
            · rcases h with h | h
              · exact Or.inr ⟨_, h⟩
              · exact ih _ _ h
          · simp only [List.mem_cons, List.mem_singleton] at hx
            rcases hx with h | h
            · exact Or.inl ⟨_, h⟩
            · exact Or.inr ⟨_, by simpa using h⟩

/-- Any put request found in the trace of `Put` carries the gob encoding of
the message and the fixed parameters `(pri, delay, ttr) = (1, 0, 60e9)`. -/
theorem goPut_tput_mem (env : Env) (fuel : Nat) (st : St) (m : Message)
    (c : Nat) (b : List Nat) (p d r : Nat)
    (hmem : TCall.tput c b p d r ∈ (goPut env fuel st m).tr) :
    b = gobEncode m ∧ p = 1 ∧ d = 0 ∧ r = 60000000000 := by
  have hconn := connection_tr_dial_probe env fuel st
  cases hcr : (connectionAux env fuel st).res with
  | diverge =>
    simp only [goPut, hcr] at hmem
    rcases hconn _ hmem with ⟨a, h⟩ | ⟨cc, h⟩ <;> simp at h
  | err e =>
    simp only [goPut, hcr] at hmem
    rcases hconn _ hmem with ⟨a, h⟩ | ⟨cc, h⟩ <;> simp at h
  | ok cn =>
    cases hee : env.encodeErr with
    | some e =>
      simp only [goPut, hcr, hee] at hmem
      rcases hconn _ hmem with ⟨a, h⟩ | ⟨cc, h⟩ <;> simp at h
    | none =>
      simp only [goPut, hcr, hee] at hmem
      split at hmem <;>
      · simp only [List.mem_append, List.mem_singleton] at hmem
        rcases hmem with h | h
        · rcases hconn _ h with ⟨a, h2⟩ | ⟨cc, h2⟩ <;> simp at h2
        · injection h with h1 h2 h3 h4 h5
          exact ⟨h2, h3, h4, h5⟩

/-!  Claim theorems. -/

/-- C1 (counterexample): for the message `⟨"a", [], 0⟩` with unset id and a
healthy transport, `Delete` does fail with `UnknownMessageError`, but it has
already acquired a connection: its transport trace contains a dial and a
liveness probe, refuting "perform no transport call at all". -/
theorem delete_unset_id_contacts_transport :
    (goDelete envOkBase 3 st0 ⟨"a", [], 0⟩).res = .err "Unknown message." ∧
    (goDelete envOkBase 3 st0 ⟨"a", [], 0⟩).tr =
      [.dial "localhost:11300", .probe 1] := ⟨rfl, rfl⟩

/-- C1 (amended): for every message with unset (zero) id, `Release` fails
with `UnknownMessageError` before any transport interaction (empty trace);
`Delete` acquires a connection first — if acquisition succeeds it then
fails with `UnknownMessageError` issuing no delete request beyond the
acquisition's own dial/probe, and if acquisition fails that error is
returned instead. -/
theorem unset_id_unknown_message (env : Env) (fuel : Nat) (st : St) (m : Message)
    (hid : m.id = 0) :
    (goRelease env fuel st m).res = .err "Unknown message." ∧
    (goRelease env fuel st m).tr = [] ∧
    (∀ c, (connectionAux env fuel st).res = .ok c →
      (goDelete env fuel st m).res = .err "Unknown message." ∧
      (goDelete env fuel st m).tr = (connectionAux env fuel st).tr) ∧
    (∀ e, (connectionAux env fuel st).res = .err e →
      (goDelete env fuel st m).res = .err e) := by
  refine ⟨?_, ?_, ?_, ?_⟩
  · simp [goRelease, hid]
  · simp [goRelease, hid]
  · intro c hc
    simp [goDelete, hc, hid]
  · intro e he
    simp [goDelete, he]

/-- C1 (witness): the amended theorem evaluated on the message
`⟨"a", [], 0⟩` in the benign environment. -/
theorem unset_id_unknown_message_w :
    (goRelease envOkBase 3 st0 ⟨"a", [], 0⟩).res = .err "Unknown message." ∧
    (goRelease envOkBase 3 st0 ⟨"a", [], 0⟩).tr = [] :=
  ⟨(unset_id_unknown_message envOkBase 3 st0 ⟨"a", [], 0⟩ rfl).1,
   (unset_id_unknown_message envOkBase 3 st0 ⟨"a", [], 0⟩ rfl).2.1⟩

/-- C2 (counterexample): with a transport whose liveness probe fails on
every attempt, an acquisition run with fuel 10 performs ten probe attempts
(each followed by a restart) and still does not complete — refuting
"retried at most once more": a depth-one retry would finish (successfully
or with an error) within any fuel of at least 3. -/
theorem connection_flap_exceeds_one_retry :
    (connectionAux envFlap 10 st0).res = .diverge ∧
    ((connectionAux envFlap 10 st0).tr.countP fun x =>
      match x with | TCall.probe _ => true | _ => false) = 10 := ⟨rfl, rfl⟩

/-- C2 (amended): when the probe fails the shared connection is cleared and
the whole acquisition is retried recursively with NO depth bound: against a
transport whose probe fails on every attempt, `connection()` never
completes — for every fuel the embedded recursion exhausts it. -/
theorem connection_flap_diverges (fuel : Nat) (st : St) :
    (connectionAux envFlap fuel st).res = .diverge := by
  have hp : ∀ k, envFlap.probeResult k = some "ListTubes: connection reset" := fun _ => rfl
  have hc : envFlap.cfg = some "localhost:11300" := rfl
  have hd : ∀ k, envFlap.dialResult k = .ok (k + 1) := fun _ => rfl
  induction fuel generalizing st with
  | zero => rfl
  | succ n ih =>
    rcases st with ⟨conn, d, p⟩
    cases conn <;> simp [connectionAux, hp, hc, hd, ih]

/-- C3: when a reserved payload fails to decode for a reason other than a
clean end-of-input, `Get` issues a delete of that reservation id against
the transport, fails with `InvalidMessageError` carrying the quoted raw
payload, and returns no message; a clean end-of-input decode is instead
treated as success. -/
theorem get_bad_decode_deletes (env : Env) (fuel : Nat) (st : St)
    (t c rid : Nat) (body : List Nat)
    (hc : (connectionAux env fuel st).res = .ok c)
    (hr : env.reserveResult t = .ok (rid, body)) :
    (∀ e, gobDecode body = .error (.other e) →
      (goGet env fuel st t).res = .err ("Invalid message: " ++ goQuote body) ∧
      (goGet env fuel st t).tr =
        (connectionAux env fuel st).tr ++ [.treserve c t, .tdelete c rid] ∧
      ∀ m, (goGet env fuel st t).res ≠ .ok m) ∧
    (gobDecode body = .error .eof → ∃ m, (goGet env fuel st t).res = .ok m) := by
  constructor
  · intro e he
    refine ⟨?_, ?_, ?_⟩ <;> simp [goGet, hc, hr, he]
  · intro he
    exact ⟨⟨"", [], rid⟩, by simp [goGet, hc, hr, he]⟩

/-- C3 (witness): the corrupt payload `[5]` (a length prefix with no bytes)
makes `Get` fail with the quoted payload and issue the cleanup delete. -/
theorem get_bad_decode_deletes_w :
    (goGet envBadBody 3 st0 2).res = .err ("Invalid message: " ++ goQuote [5]) ∧
    (goGet envBadBody 3 st0 2).tr =
      (connectionAux envBadBody 3 st0).tr ++ [.treserve 1 2, .tdelete 1 9] :=
  ⟨((get_bad_decode_deletes envBadBody 3 st0 2 1 9 [5] rfl rfl).1 "gob: corrupt input" rfl).1,
   ((get_bad_decode_deletes envBadBody 3 st0 2 1 9 [5] rfl rfl).1 "gob: corrupt input" rfl).2.1⟩

/-- C4: a reservation error ending in `TIMED_OUT` makes `Get` fail with
the `TimeoutError` whose text embeds the rendering of the requested
duration, returning no message; every other reservation error is
propagated unchanged. -/
theorem get_reserve_error_classification (env : Env) (fuel : Nat) (st : St)
    (t c : Nat) (e : GoError)
    (hc : (connectionAux env fuel st).res = .ok c)
    (hr : env.reserveResult t = .error e) :
    (goGet env fuel st t).res =
      .err (if timedOutMatch e then
        "Timed out waiting for message after " ++ goDurationString t ++ "." else e) ∧
    (∀ m, (goGet env fuel st t).res ≠ .ok m) ∧
    (timedOutMatch e →
      ∃ pre post, (if timedOutMatch e then
        "Timed out waiting for message after " ++ goDurationString t ++ "." else e) =
        pre ++ goDurationString t ++ post) := by
  refine ⟨?_, ?_, ?_⟩
  · by_cases ht : timedOutMatch e <;> simp [goGet, hc, hr, ht]
  · intro m
    by_cases ht : timedOutMatch e <;> simp [goGet, hc, hr, ht]
  · intro ht
    exact ⟨"Timed out waiting for message after ", ".", by simp [ht]⟩

/-- C4 (witness): a reservation timing out after 2s yields exactly
`Timed out waiting for message after 2s.`. -/
theorem get_reserve_error_classification_w :
    (goGet envOkBase 3 st0 2000000000).res =
      .err "Timed out waiting for message after 2s." := by
  have h := (get_reserve_error_classification envOkBase 3 st0 2000000000 1 "TIMED_OUT" rfl rfl).1
  rw [h]
  decide

/-- C5: for a message with non-zero id and an acquired connection, a
transport delete/release error ending in `not found` is normalized to
`MessageNotFoundError`, any other error string is returned verbatim, and
success returns nothing. -/
theorem delete_release_transport_errors (env : Env) (fuel : Nat) (st : St)
    (m : Message) (c : Nat) (hid : m.id ≠ 0)
    (hc : (connectionAux env fuel st).res = .ok c) :
    ((goDelete env fuel st m).res = match env.deleteResult m.id with
      | none => .ok ()
      | some e => .err (if notFoundMatch e then "Message not found." else e)) ∧
    ((goRelease env fuel st m).res = match env.releaseResult m.id 1 0 with
      | none => .ok ()
      | some e => .err (if notFoundMatch e then "Message not found." else e)) := by
  constructor
  · cases hd : env.deleteResult m.id with
    | none => simp [goDelete, hc, hid, hd]
    | some e =>
      by_cases hnf : notFoundMatch e <;> simp [goDelete, hc, hid, hd, hnf]
  · cases hr : env.releaseResult m.id 1 0 with
    | none => simp [goRelease, hc, hid, hr]
    | some e =>
      by_cases hnf : notFoundMatch e <;> simp [goRelease, hc, hid, hr, hnf]

/-- C5 (witness): a transport answering `job not found` makes `Delete`
return `Message not found.`. -/
theorem delete_release_transport_errors_w :
    (goDelete envNotFound 3 st0 ⟨"a", [], 5⟩).res = .err "Message not found." := by
  have h := (delete_release_transport_errors envNotFound 3 st0 ⟨"a", [], 5⟩ 1
    (by decide) rfl).1
  rw [h]
  decide

/-- C6: the wire payload encodes exactly the action and arguments and never
the transport-local id: messages equal in `Action`/`Args` have identical
payloads whatever their ids, the payload decodes back to exactly
`(Action, Args)`, every put request submits precisely that payload, and a
put-then-get round trip restores action and arguments. -/
theorem put_payload_excludes_id (m1 m2 : Message) (env : Env) (fuel : Nat) (st : St)
    (hA : m1.Action = m2.Action) (hG : m1.Args = m2.Args) :
    gobEncode m1 = gobEncode m2 ∧
    gobDecode (gobEncode m1) = .ok (m1.Action, m1.Args) ∧
    (∀ c b p d r, TCall.tput c b p d r ∈ (goPut env fuel st m1).tr → b = gobEncode m1) ∧
    (∀ t c rid, (connectionAux env fuel st).res = .ok c →
      env.reserveResult t = .ok (rid, gobEncode m1) →
      (goGet env fuel st t).res = .ok ⟨m1.Action, m1.Args, rid⟩) := by
  refine ⟨?_, gobDecode_gobEncode m1, ?_, ?_⟩
  · simp [gobEncode, hA, hG]
  · intro c b p d r hmem
    exact (goPut_tput_mem env fuel st m1 c b p d r hmem).1
  · intro t c rid hc hr
    simp [goGet, hc, hr, gobDecode_gobEncode m1]

/-- C6 (witness): `⟨"A", ["x","y"]⟩` under ids 3 and 9 encodes identically,
and getting the stored payload back restores action and arguments with the
reservation id 42. -/
theorem put_payload_excludes_id_w :
    gobEncode (⟨"A", ["x", "y"], 3⟩ : Message) = gobEncode ⟨"A", ["x", "y"], 9⟩ ∧
    (goGet envRoundTrip 3 st0 5).res = .ok ⟨"A", ["x", "y"], 42⟩ :=
  ⟨(put_payload_excludes_id ⟨"A", ["x", "y"], 3⟩ ⟨"A", ["x", "y"], 9⟩ envRoundTrip 3 st0 rfl rfl).1,
   (put_payload_excludes_id ⟨"A", ["x", "y"], 3⟩ ⟨"A", ["x", "y"], 9⟩ envRoundTrip 3 st0 rfl rfl).2.2.2
     5 1 42 rfl rfl⟩

/-- C7: every put submission hands the transport the fixed parameters of
`conn.Put(body, 1, 0, 60e9)`: the fixed priority tier 1, zero delay, and a
time-to-run of 60e9 nanoseconds, i.e. exactly 60 seconds. -/
theorem put_fixed_parameters (env : Env) (fuel : Nat) (st : St) (m : Message) :
    ∀ c b p d r, TCall.tput c b p d r ∈ (goPut env fuel st m).tr →
      p = 1 ∧ d = 0 ∧ r = 60000000000 ∧ r = 60 * 1000000000 := by
  intro c b p d r hmem
  have h := goPut_tput_mem env fuel st m c b p d r hmem
  exact ⟨h.2.1, h.2.2.1, h.2.2.2, by rw [h.2.2.2]⟩

/-- C7 (witness): the put request of a concrete `Put` run carries
`(1, 0, 60e9)`. -/
theorem put_fixed_parameters_w :
    TCall.tput 1 (gobEncode ⟨"A", ["x", "y"], 0⟩) 1 0 60000000000 ∈
      (goPut envOkBase 3 st0 ⟨"A", ["x", "y"], 0⟩).tr ∧
    (1 = 1 ∧ 0 = 0 ∧ 60000000000 = 60000000000 ∧ 60000000000 = 60 * 1000000000) :=
  ⟨by decide,
   put_fixed_parameters envOkBase 3 st0 ⟨"A", ["x", "y"], 0⟩ 1
     (gobEncode ⟨"A", ["x", "y"], 0⟩) 1 0 60000000000 (by decide)⟩

/-- C8 (counterexample): `Put` stores the id the transport returned BEFORE
inspecting the error (`msg.id = id; return err`), so a transport answering
a put with id 7 together with an error (as beanstalk's `BURIED <id>` does)
leaves the failed message with `transport_id = 7` — refuting "when put
returns an error m's transport_id remains unset". -/
theorem put_error_sets_id :
    (goPut envBuried 3 st0 ⟨"a", ["b"], 0⟩).res = .err "buried" ∧
    (goPut envBuried 3 st0 ⟨"a", ["b"], 0⟩).msg.id = 7 := ⟨rfl, rfl⟩

/-- C8 (amended): on connection failure or serialization failure the
message is untouched; once the payload is submitted, the id the transport
returns is stored into the message unconditionally — on success the
operation returns nothing and the message carries the transport-assigned
id, but a submission error also leaves the returned id stored. -/
theorem put_id_assignment (env : Env) (fuel : Nat) (st : St) (m : Message) :
    (∀ e, (connectionAux env fuel st).res = .err e →
      (goPut env fuel st m).msg = m ∧ (goPut env fuel st m).res = .err e) ∧
    (∀ c e, (connectionAux env fuel st).res = .ok c → env.encodeErr = some e →
      (goPut env fuel st m).msg = m ∧ (goPut env fuel st m).res = .err e) ∧
    (∀ c, (connectionAux env fuel st).res = .ok c → env.encodeErr = none →
      (goPut env fuel st m).msg.id = (env.putResult (gobEncode m) 1 0 60000000000).1 ∧
      ((env.putResult (gobEncode m) 1 0 60000000000).2 = none →
        (goPut env fuel st m).res = .ok ())) := by
  refine ⟨?_, ?_, ?_⟩
  · intro e he
    constructor <;> simp [goPut, he]
  · intro c e hc he
    constructor <;> simp [goPut, hc, he]
  · intro c hc he
    constructor
    · cases hpr : (env.putResult (gobEncode m) 1 0 60000000000).2 <;>
        simp [goPut, hc, he, hpr]
    · intro hok
      simp [goPut, hc, he, hok]

/-- C8 (witness): a successful put against the benign transport stores the
assigned id 7 and returns success. -/
theorem put_id_assignment_w :
    (goPut envOkBase 3 st0 ⟨"A", ["x", "y"], 0⟩).msg.id = 7 ∧
    (goPut envOkBase 3 st0 ⟨"A", ["x", "y"], 0⟩).res = .ok () :=
  ⟨((put_id_assignment envOkBase 3 st0 ⟨"A", ["x", "y"], 0⟩).2.2 1 rfl rfl).1,
   ((put_id_assignment envOkBase 3 st0 ⟨"A", ["x", "y"], 0⟩).2.2 1 rfl rfl).2 rfl⟩

/-- C9: two threads entering `connection()` with no existing connection,
scheduled so that both pass the `conn == nil` check before either re-locks
to dial, perform TWO dials — the second overwriting the first connection —
and return different connection objects, because the code releases the
mutex between the nil check and the dial and never re-checks. -/
theorem concurrent_connection_double_dial :
    (run schedRace sys0).dials = 2 ∧
    (run schedRace sys0).thr0.ret = some 1 ∧
    (run schedRace sys0).thr1.ret = some 2 ∧
    (run schedRace sys0).thr0.ret ≠ (run schedRace sys0).thr1.ret := by
  refine ⟨rfl, rfl, rfl, by decide⟩

/-- C10: a reserved payload whose decode stops with a clean end-of-input
makes `Get` succeed with the zero-value message — empty action, empty
argument list — carrying the reservation id, with the ordinary success
trace and no indication to the caller. -/
theorem get_eof_zero_message (env : Env) (fuel : Nat) (st : St)
    (t c rid : Nat) (body : List Nat)
    (hc : (connectionAux env fuel st).res = .ok c)
    (hr : env.reserveResult t = .ok (rid, body))
    (he : gobDecode body = .error .eof) :
    (goGet env fuel st t).res = .ok ⟨"", [], rid⟩ ∧
    (goGet env fuel st t).tr = (connectionAux env fuel st).tr ++ [.treserve c t] := by
  constructor <;> simp [goGet, hc, hr, he]

/-- C10 (witness): an empty reserved payload yields the zero-value message
with the reservation id 11. -/
theorem get_eof_zero_message_w :
    (goGet envEmptyBody 3 st0 2).res = .ok ⟨"", [], 11⟩ :=
  (get_eof_zero_message envEmptyBody 3 st0 2 1 11 [] rfl rfl rfl).1

end TsuruQueue
